import Mathlib

/-!
Verification development for the Full Out Media website analyzer
(`website_analyzer.py`, `api.py`).  The rule engine and scoring pipeline of
`WebsiteAnalyzer` is embedded shallowly: the HTML parser and the HTTP fetcher
are external collaborators, so a fetched page is modelled as the raw character
text plus the parse facts the analyzers extract from the document tree.
-/

/-- Severity of an issue (`Issue['type']` in the source: `'error' | 'warning'`). -/
inductive Sev
  | error
  | warning
deriving DecidableEq

/-- Issue category (`Issue['category']`). -/
inductive Cat
  | seo
  | tracking
  | technical
  | meta_ads
deriving DecidableEq

/-- Stable identifier for each distinct `issues.append({...})` site in the
source; the source distinguishes issues only by their text, which is in
bijection with these constructors. -/
inductive IssueKind
  | titleMissing
  | titleShort
  | titleLong
  | metaDescMissing
  | metaDescShort
  | h1Missing
  | h1Multiple
  | imagesAlt
  | canonicalMissing
  | ogIncomplete
  | schemaMissing
  | gtmMissing
  | ga4Missing
  | gadsMissing
  | fbPixelMissing
  | fbEventsIncomplete
  | viewportMissing
  | httpsMissing
  | manyExternalScripts
  | cookieMissing
  | metaAdsUnknown
deriving DecidableEq

/-- An issue record: severity, category and title (the `description` and
`impact` strings carry no decision logic and are omitted). -/
structure Issue where
  kind : IssueKind
  type : Sev
  category : Cat
  title : String
deriving DecidableEq

/-- Category of an opportunity record. -/
inductive OppCat
  | meta_ads
  | google_ads
  | seo
  | platform
deriving DecidableEq

/-- An opportunity record (category and title; the fixed marketing copy in
`description`/`potential` is omitted). -/
structure Opp where
  category : OppCat
  title : String
deriving DecidableEq

/-- The `results['scores']` mapping: one optional integer per category plus
the derived `overall` entry; `none` models an absent key. -/
structure Scores where
  seo : Option ℤ
  tracking : Option ℤ
  technical : Option ℤ
  meta_ads : Option ℤ
  overall : Option ℤ
deriving DecidableEq

/-- The four category entries of `results['scores']` as read by
`calculate_overall_score` (the `overall` key is not among the weights). -/
structure ScoresMap where
  seo : Option ℤ
  tracking : Option ℤ
  technical : Option ℤ
  meta_ads : Option ℤ
deriving DecidableEq

/-- A fetched page: the raw text (`self.html`) together with the facts the
analyzers extract from the parsed tree (`self.soup`), which is produced by the
external HTML parser. -/
structure Doc where
  raw : List Char
  /-- `get_text()` of the first `title` element, if any. -/
  titleText : Option String
  /-- `content` attribute of the first `meta[name=description]`, if present. -/
  metaDescContent : Option String
  /-- stripped texts of the `h1` elements. -/
  h1s : List String
  /-- per-`img` `alt` attribute (`none` when the attribute is absent). -/
  imgAlts : List (Option String)
  /-- `href` attribute of the first `link[rel=canonical]`, if present. -/
  canonicalHref : Option String
  ogTitle : Bool
  ogDesc : Bool
  ogImage : Bool
  /-- number of `script[type=application/ld+json]` blocks. -/
  schemaCount : Nat
  /-- a `meta[name=viewport]` element exists. -/
  hasViewport : Bool
  /-- number of `img[loading=lazy]` elements. -/
  lazyCount : Nat
  /-- `src` attributes of the `script[src]` elements, in document order. -/
  scriptSrcs : List String
  /-- number of `link[rel=stylesheet]` elements. -/
  stylesheetCount : Nat

/-- Outcome of `crawl()`: the fetched document, or the exception text. -/
inductive FetchResult
  | success (doc : Doc)
  | failure (msg : String)

/-- The `results` aggregate built by `run_full_analysis`. -/
structure AnalysisResult where
  url : String
  domain : String
  platform : Option String
  scores : Scores
  issues : List Issue
  opportunities : List Opp
  error : Option String

/- ## Character and string helpers (Python string semantics) -/

/-- Python `\s` for the ASCII range (space, tab, newline, CR, VT, FF). -/
def isPySpace (c : Char) : Bool :=
  c = ' ' || c = '\t' || c = '\n' || c = '\r' || c = '\x0b' || c = '\x0c'

/-- A quote character: the regexes use the class `['"]`. -/
def isQuote (c : Char) : Bool :=
  c.toNat = 39 || c.toNat = 34

/-- The regex class `[A-Z0-9]`. -/
def isUpperDigit (c : Char) : Bool :=
  ('A' ≤ c && c ≤ 'Z') || ('0' ≤ c && c ≤ '9')

/-- The regex class `\d` (ASCII digits). -/
def isAsciiDigit (c : Char) : Bool :=
  '0' ≤ c && c ≤ '9'

/-- Substring containment, Python's `pat in s`. -/
def listContains (pat : List Char) : List Char → Bool
  | [] => pat.isEmpty
  | c :: rest => pat.isPrefixOf (c :: rest) || listContains pat rest

/-- Python `s.startswith(pre)`. -/
def pyStartsWith (pre s : String) : Bool :=
  pre.toList.isPrefixOf s.toList

/-- Python `s.strip()`. -/
def pyStrip (s : String) : String :=
  (((s.toList.dropWhile isPySpace).reverse.dropWhile isPySpace).reverse).asString

/-- Python `s.lower()` on the ASCII range. -/
def pyLower (s : List Char) : List Char :=
  s.map Char.toLower

/-- Python `s.capitalize()` on the ASCII range: first character upper-cased,
the rest lower-cased. -/
def pyCapitalize (s : String) : String :=
  match s.toList with
  | [] => ""
  | c :: rest => (c.toUpper :: rest.map Char.toLower).asString

/-- Truthiness of an optional Python string: `None` and `''` are falsy. -/
def strTruthy : Option String → Bool
  | none => false
  | some s => s ≠ ""

/- ## Regex matchers of `analyze_tracking` -/

/-- Does predicate `p` accept some suffix of the text?  This is `re.search`
for the patterns below, each of which is anchored at a suffix by its matcher. -/
def scanAny (p : List Char → Bool) : List Char → Bool
  | [] => p []
  | c :: rest => p (c :: rest) || scanAny p rest

/-- Anchored match of `GTM-[A-Z0-9]+`. -/
def gtmAt : List Char → Bool
  | 'G' :: 'T' :: 'M' :: '-' :: c :: _ => isUpperDigit c
  | _ => false

/-- `re.findall(r'GTM-[A-Z0-9]+', html)` is nonempty. -/
def hasGTM (html : List Char) : Bool := scanAny gtmAt html

/-- Anchored match of `G-[A-Z0-9]+`. -/
def ga4At : List Char → Bool
  | 'G' :: '-' :: c :: _ => isUpperDigit c
  | _ => false

/-- `re.findall(r'G-[A-Z0-9]+', html)` is nonempty. -/
def hasGA4 (html : List Char) : Bool := scanAny ga4At html

/-- Anchored match of `AW-[0-9]+`. -/
def awAt : List Char → Bool
  | 'A' :: 'W' :: '-' :: c :: _ => isAsciiDigit c
  | _ => false

/-- `re.findall(r'AW-[0-9]+', html)` is nonempty. -/
def hasAW (html : List Char) : Bool := scanAny awAt html

/-- `\s*` : drop leading Python whitespace. -/
def dropPySpaces : List Char → List Char
  | c :: rest => if isPySpace c then dropPySpaces rest else c :: rest
  | [] => []

/-- After the digits of the pixel id: more digits, then a quote, `\s*`, `)`. -/
def fbqDigitsRest : List Char → Bool
  | c :: rest =>
    if isAsciiDigit c then fbqDigitsRest rest
    else if isQuote c then
      match dropPySpaces rest with
      | ')' :: _ => true
      | _ => false
    else false
  | [] => false

/-- `(\d+)['"]\s*\)` : at least one digit, closing quote, `\s*`, `)`. -/
def fbqAfterQuote : List Char → Bool
  | c :: rest => isAsciiDigit c && fbqDigitsRest rest
  | [] => false

/-- Anchored match of `fbq\s*\(\s*['"]init['"]\s*,\s*['"](\d+)['"]\s*\)`. -/
def fbqAt (s : List Char) : Bool :=
  match s with
  | 'f' :: 'b' :: 'q' :: r =>
    (match dropPySpaces r with
     | '(' :: r2 =>
       (match dropPySpaces r2 with
        | q1 :: 'i' :: 'n' :: 'i' :: 't' :: q2 :: r3 =>
          isQuote q1 && isQuote q2 &&
          (match dropPySpaces r3 with
           | ',' :: r4 =>
             (match dropPySpaces r4 with
              | q3 :: r5 => isQuote q3 && fbqAfterQuote r5
              | [] => false)
           | _ => false)
        | _ => false)
     | _ => false)
  | _ => false

/-- The Facebook-Pixel init regex has a match in the text. -/
def hasFbPixel (html : List Char) : Bool := scanAny fbqAt html

/-- After the first id character of `ttq.load`: more `[A-Z0-9]`, a quote,
`\s*`, `)`. -/
def ttqIdRest : List Char → Bool
  | c :: rest =>
    if isUpperDigit c then ttqIdRest rest
    else if isQuote c then
      match dropPySpaces rest with
      | ')' :: _ => true
      | _ => false
    else false
  | [] => false

/-- `([A-Z0-9]+)['"]\s*\)` for the TikTok pattern. -/
def ttqAfterQuote : List Char → Bool
  | c :: rest => isUpperDigit c && ttqIdRest rest
  | [] => false

/-- Anchored match of `ttq.load\s*\(\s*['"]([A-Z0-9]+)['"]\s*\)`. -/
def ttqAt : List Char → Bool
  | 't' :: 't' :: 'q' :: '.' :: 'l' :: 'o' :: 'a' :: 'd' :: r =>
    (match dropPySpaces r with
     | '(' :: r2 =>
       (match dropPySpaces r2 with
        | q :: r3 => isQuote q && ttqAfterQuote r3
        | [] => false)
     | _ => false)
  | _ => false

/-- The TikTok pixel regex has a match in the text. -/
def hasTikTok (html : List Char) : Bool := scanAny ttqAt html

/-- `'enhanced_conversion' in html.lower() or 'user_data' in html.lower()`. -/
def enhancedConv (html : List Char) : Bool :=
  listContains "enhanced_conversion".toList (pyLower html) ||
  listContains "user_data".toList (pyLower html)

/- ## Rounding (Python 3 `round`: round half to even) -/

/-- Python 3 `round` on an exact rational value. -/
def pyRound (q : ℚ) : ℤ :=
  if q - ⌊q⌋ < 1/2 then ⌊q⌋
  else if (1:ℚ)/2 < q - ⌊q⌋ then ⌊q⌋ + 1
  else if ⌊q⌋ % 2 = 0 then ⌊q⌋ else ⌊q⌋ + 1

/-- Python 3 `round(a / b)` for naturals with `b > 0`, via integer
quotient/remainder (half-to-even). -/
def pyRoundNatDiv (a b : Nat) : Nat :=
  if 2 * (a % b) < b then a / b
  else if b < 2 * (a % b) then a / b + 1
  else if a / b % 2 = 0 then a / b else a / b + 1

/-- `max(0, min(100, score))`. -/
def clampScore (x : ℤ) : ℤ := max 0 (min 100 x)

/-- The score loop shared by the analyzers: start at 100 and subtract
`perErr` per error and `perWarn` per warning among the issues of `cat`. -/
def penaltyFold (perErr perWarn : ℤ) (cat : Cat) (issues : List Issue) : ℤ :=
  issues.foldl
    (fun s i =>
      if i.category = cat then s - (if i.type = Sev.error then perErr else perWarn)
      else s)
    100

/- ## Platform detection (`detect_platform`) -/

/-- The ordered `platforms` table of `detect_platform` (Python dicts preserve
insertion order). -/
def platformTable : List (String × List String) :=
  [("merchantpro", ["merchantpro", "mp-"]),
   ("gomag", ["gomag", "gomag.ro"]),
   ("shopify", ["shopify", "cdn.shopify"]),
   ("woocommerce", ["woocommerce", "wp-content/plugins/woocommerce"]),
   ("magento", ["magento", "mage"]),
   ("prestashop", ["prestashop", "presta"]),
   ("opencart", ["opencart"]),
   ("vtex", ["vtex"])]

/-- The scan loop of `detect_platform`: first table entry one of whose
signatures occurs in the (already lower-cased) text. -/
def detectPlatformFrom (text : List Char) : List (String × List String) → Option String
  | [] => none
  | (name, sigs) :: rest =>
    if sigs.any (fun sig => listContains sig.toList text) then some name
    else detectPlatformFrom text rest

/-- The value `detect_platform` stores in `results['platform']`:
the matched platform's capitalized name, or `"Unknown"`. -/
def detectPlatform (raw : List Char) : String :=
  match detectPlatformFrom (pyLower raw) platformTable with
  | some name => pyCapitalize name
  | none => "Unknown"

/-- A signature occurs in the lower-cased markup. -/
def sigOccurs (sig : String) (raw : List Char) : Bool :=
  listContains sig.toList (pyLower raw)

/- ## SEO analyzer (`analyze_seo`) -/

/-- `seo['title']`: stripped text of the title tag, `None` when absent. -/
def seoTitle (doc : Doc) : Option String :=
  doc.titleText.map pyStrip

/-- `seo['title_length']`. -/
def seoTitleLength (doc : Doc) : Nat :=
  if strTruthy (seoTitle doc) then ((seoTitle doc).getD "").length else 0

/-- `seo['meta_description']`. -/
def seoMetaDescription (doc : Doc) : Option String :=
  match doc.metaDescContent with
  | some c => if c = "" then none else some (pyStrip c)
  | none => none

/-- `seo['meta_description_length']`. -/
def seoMetaDescriptionLength (doc : Doc) : Nat :=
  if strTruthy (seoMetaDescription doc) then ((seoMetaDescription doc).getD "").length else 0

/-- An image counts as `without alt`: attribute absent, empty, or blank. -/
def altMissing : Option String → Bool
  | none => true
  | some a => a = "" || pyStrip a = ""

/-- `seo['images_without_alt']`. -/
def imagesWithoutAlt (doc : Doc) : Nat :=
  (doc.imgAlts.filter altMissing).length

/-- `seo['canonical']`. -/
def seoCanonical (doc : Doc) : Option String :=
  match doc.canonicalHref with
  | some h => if h = "" then none else some h
  | none => none

/-- The `missing_og` list, in the dict's insertion order. -/
def missingOg (doc : Doc) : List String :=
  (if doc.ogTitle then [] else ["title"]) ++
  (if doc.ogDesc then [] else ["description"]) ++
  (if doc.ogImage then [] else ["image"])

/-- Title-tag issues (missing / too short / too long). -/
def titleBlock (doc : Doc) : List Issue :=
  if ¬ strTruthy (seoTitle doc) then
    [⟨IssueKind.titleMissing, Sev.error, Cat.seo, "Title tag lipsă"⟩]
  else if seoTitleLength doc < 30 then
    [⟨IssueKind.titleShort, Sev.warning, Cat.seo, "Title tag prea scurt"⟩]
  else if 60 < seoTitleLength doc then
    [⟨IssueKind.titleLong, Sev.warning, Cat.seo, "Title tag prea lung"⟩]
  else []

/-- Meta-description issues. -/
def metaBlock (doc : Doc) : List Issue :=
  if ¬ strTruthy (seoMetaDescription doc) then
    [⟨IssueKind.metaDescMissing, Sev.error, Cat.seo, "Meta description lipsă"⟩]
  else if seoMetaDescriptionLength doc < 120 then
    [⟨IssueKind.metaDescShort, Sev.warning, Cat.seo, "Meta description prea scurtă"⟩]
  else []

/-- H1 issues. -/
def h1Block (doc : Doc) : List Issue :=
  if doc.h1s.length = 0 then
    [⟨IssueKind.h1Missing, Sev.error, Cat.seo, "H1 tag lipsă"⟩]
  else if 1 < doc.h1s.length then
    [⟨IssueKind.h1Multiple, Sev.warning, Cat.seo,
      "Multiple H1 tags (" ++ toString doc.h1s.length ++ ")"⟩]
  else []

/-- The rounded missing-alt percentage `round(m / max(t, 1) * 100)`. -/
def altPct (doc : Doc) : Nat :=
  pyRoundNatDiv (imagesWithoutAlt doc * 100) (max doc.imgAlts.length 1)

/-- Missing-alt issue: emitted only when some image lacks alt; `error` at a
missing percentage of at least 50, else `warning`. -/
def imgBlock (doc : Doc) : List Issue :=
  if 0 < imagesWithoutAlt doc then
    [⟨IssueKind.imagesAlt,
      (if altPct doc < 50 then Sev.warning else Sev.error), Cat.seo,
      toString (imagesWithoutAlt doc) ++ " imagini fără ALT (" ++ toString (altPct doc) ++ "%)"⟩]
  else []

/-- Canonical-link issue. -/
def canonicalBlock (doc : Doc) : List Issue :=
  if ¬ strTruthy (seoCanonical doc) then
    [⟨IssueKind.canonicalMissing, Sev.warning, Cat.seo, "Canonical URL lipsă"⟩]
  else []

/-- Open-Graph issue. -/
def ogBlock (doc : Doc) : List Issue :=
  if missingOg doc ≠ [] then
    [⟨IssueKind.ogIncomplete, Sev.warning, Cat.seo, "Open Graph tags incomplete"⟩]
  else []

/-- Structured-data issue. -/
def schemaBlock (doc : Doc) : List Issue :=
  if doc.schemaCount = 0 then
    [⟨IssueKind.schemaMissing, Sev.warning, Cat.seo, "Structured data (Schema.org) lipsă"⟩]
  else []

/-- All issues appended by `analyze_seo`, in source order. -/
def seoIssues (doc : Doc) : List Issue :=
  titleBlock doc ++ metaBlock doc ++ h1Block doc ++ imgBlock doc ++
  canonicalBlock doc ++ ogBlock doc ++ schemaBlock doc

/-- `results['scores']['seo']`: 100 minus 15 per error and 8 per warning,
clamped to [0, 100]. -/
def seoScore (doc : Doc) : ℤ :=
  clampScore (penaltyFold 15 8 Cat.seo (seoIssues doc))

/- ## Tracking analyzer (`analyze_tracking`) -/

/-- The five named Facebook events scanned for. -/
def fbEventNames : List String :=
  ["Purchase", "AddToCart", "ViewContent", "InitiateCheckout", "AddPaymentInfo"]

/-- `tracking['facebook_events']`: events present as a single- or
double-quoted literal substring. -/
def fbEvents (html : List Char) : List String :=
  fbEventNames.filter (fun e =>
    listContains ("'" ++ e ++ "'").toList html ||
    listContains ("\"" ++ e ++ "\"").toList html)

/-- GTM issue. -/
def gtmBlock (html : List Char) : List Issue :=
  if hasGTM html then [] else
    [⟨IssueKind.gtmMissing, Sev.error, Cat.tracking, "Google Tag Manager nedetectat"⟩]

/-- GA4 issue. -/
def ga4Block (html : List Char) : List Issue :=
  if hasGA4 html then [] else
    [⟨IssueKind.ga4Missing, Sev.error, Cat.tracking, "Google Analytics 4 nedetectat"⟩]

/-- Google Ads conversion-tag issue. -/
def awBlock (html : List Char) : List Issue :=
  if hasAW html then [] else
    [⟨IssueKind.gadsMissing, Sev.error, Cat.tracking, "Google Ads Conversion Tag absent"⟩]

/-- Facebook-Pixel issues: missing pixel is an error; pixel present with
fewer than 3 of the 5 events is a warning. -/
def fbBlock (html : List Char) : List Issue :=
  if ¬ hasFbPixel html then
    [⟨IssueKind.fbPixelMissing, Sev.error, Cat.tracking, "Facebook Pixel nedetectat"⟩]
  else if (fbEvents html).length < 3 then
    [⟨IssueKind.fbEventsIncomplete, Sev.warning, Cat.tracking, "Facebook Pixel incomplet configurat"⟩]
  else []

/-- All issues appended by `analyze_tracking`, in source order. -/
def trackingIssues (html : List Char) : List Issue :=
  gtmBlock html ++ ga4Block html ++ awBlock html ++ fbBlock html

/-- `results['scores']['tracking']`: 100 minus 18 per error and 10 per
warning, clamped to [0, 100]. -/
def trackingScore (html : List Char) : ℤ :=
  clampScore (penaltyFold 18 10 Cat.tracking (trackingIssues html))

/- ## Technical analyzer (`analyze_technical`) -/

/-- `technical['external_scripts']`: script `src`s starting with `http` in
which the target domain does not occur as a substring. -/
def externalScriptsCount (domain : String) (doc : Doc) : Nat :=
  (doc.scriptSrcs.filter (fun src =>
    pyStartsWith "http" src && !(listContains domain.toList src.toList))).length

/-- The cookie-consent heuristic: any of the four literal markers occurs in
the lower-cased text. -/
def hasCookieConsent (raw : List Char) : Bool :=
  ["cookie", "gdpr", "consent", "privacy"].any
    (fun p => listContains p.toList (pyLower raw))

/-- Viewport issue. -/
def viewportBlock (doc : Doc) : List Issue :=
  if doc.hasViewport then [] else
    [⟨IssueKind.viewportMissing, Sev.error, Cat.technical, "Viewport meta tag lipsă"⟩]

/-- HTTPS issue (`self.url.startswith('https')`). -/
def httpsBlock (url : String) : List Issue :=
  if pyStartsWith "https" url then [] else
    [⟨IssueKind.httpsMissing, Sev.error, Cat.technical, "Site-ul nu folosește HTTPS"⟩]

/-- External-scripts issue: warning naming the count when it exceeds 15. -/
def extBlock (domain : String) (doc : Doc) : List Issue :=
  if 15 < externalScriptsCount domain doc then
    [⟨IssueKind.manyExternalScripts, Sev.warning, Cat.technical,
      "Multe scripturi externe (" ++ toString (externalScriptsCount domain doc) ++ ")"⟩]
  else []

/-- Cookie-consent issue. -/
def cookieBlock (raw : List Char) : List Issue :=
  if hasCookieConsent raw then [] else
    [⟨IssueKind.cookieMissing, Sev.warning, Cat.technical, "Cookie consent nedetectat"⟩]

/-- All issues appended by `analyze_technical`, in source order. -/
def technicalIssues (url domain : String) (doc : Doc) : List Issue :=
  viewportBlock doc ++ httpsBlock url ++ extBlock domain doc ++ cookieBlock doc.raw

/-- `results['scores']['technical']`. -/
def technicalScore (url domain : String) (doc : Doc) : ℤ :=
  clampScore (penaltyFold 15 8 Cat.technical (technicalIssues url domain doc))

/- ## Meta-Ads heuristic (`check_meta_ads_library`) -/

/-- The opportunity appended when the Facebook Pixel was detected. -/
def metaAuditOpp : Opp := ⟨OppCat.meta_ads, "Audit complet Meta Ads"⟩

/-- Issue appended when the pixel was not detected. -/
def metaAdsIssues (fbDetected : Bool) : List Issue :=
  if fbDetected then [] else
    [⟨IssueKind.metaAdsUnknown, Sev.warning, Cat.meta_ads, "Prezența pe Meta Ads necunoscută"⟩]

/-- Opportunities appended by the Meta-Ads heuristic. -/
def metaAdsOpps (fbDetected : Bool) : List Opp :=
  if fbDetected then [metaAuditOpp] else []

/-- `results['scores']['meta_ads']`: 70 with pixel, 40 without. -/
def metaAdsScore (fbDetected : Bool) : ℤ :=
  if fbDetected then 70 else 40

/- ## Binary64 arithmetic for the score aggregator

`calculate_overall_score` computes `sum(scores.get(k, 50) * w …)` in IEEE-754
double precision and applies Python's `round` to the resulting double.  A
double in the range of this computation is an exact dyadic value `m * 2^e`
(`(m, e) : ℤ × ℤ`); no overflow or underflow can occur here, so binary64
arithmetic is exactly: compute the true dyadic result, then round its
significand to 53 bits, to nearest, ties to even. -/

/-- Significant-bit length of a natural number, fuel-structural (the fuel 128
covers every mantissa that can arise in this computation). -/
def bitLenAux : Nat → Nat → Nat
  | 0, _ => 0
  | fuel + 1, n => if n = 0 then 0 else bitLenAux fuel (n / 2) + 1

/-- Significant-bit length: `2^(bitLen n - 1) ≤ n < 2^(bitLen n)` for `n ≥ 1`. -/
def bitLen (n : Nat) : Nat := bitLenAux 128 n

/-- Round `n / 2^k` to the nearest integer, ties to even. -/
def roundHalfEvenDiv (n k : Nat) : Nat :=
  if 2 * (n % 2 ^ k) < 2 ^ k then n / 2 ^ k
  else if 2 ^ k < 2 * (n % 2 ^ k) then n / 2 ^ k + 1
  else if n / 2 ^ k % 2 = 0 then n / 2 ^ k else n / 2 ^ k + 1

/-- Round an exact dyadic value `m * 2^e` to 53 significand bits, to nearest,
ties to even: the binary64 rounding of the exact result of an operation. -/
def fpRound (m e : ℤ) : ℤ × ℤ :=
  (if m < 0 then -(roundHalfEvenDiv m.natAbs (bitLen m.natAbs - 53) : ℤ)
   else (roundHalfEvenDiv m.natAbs (bitLen m.natAbs - 53) : ℤ),
   e + ((bitLen m.natAbs - 53 : ℕ) : ℤ))

/-- Binary64 multiplication: exact dyadic product, then rounding. -/
def fpMul (a b : ℤ × ℤ) : ℤ × ℤ := fpRound (a.1 * b.1) (a.2 + b.2)

/-- Binary64 addition: align to the smaller exponent (exact), add, round. -/
def fpAdd (a b : ℤ × ℤ) : ℤ × ℤ :=
  if a.2 ≤ b.2 then fpRound (a.1 + b.1 * 2 ^ (b.2 - a.2).toNat) a.2
  else fpRound (a.1 * 2 ^ (a.2 - b.2).toNat + b.1) b.2

/-- The exact rational value denoted by a dyadic pair. -/
def dyVal (a : ℤ × ℤ) : ℚ := (a.1 : ℚ) * (2 : ℚ) ^ a.2

/-- Python 3 `round` applied to a double given as an exact dyadic pair:
round to the nearest integer, ties to even. -/
def pyRoundDy (a : ℤ × ℤ) : ℤ :=
  if 0 ≤ a.2 then a.1 * 2 ^ a.2.toNat
  else if a.1 < 0 then -(roundHalfEvenDiv a.1.natAbs (-a.2).toNat : ℤ)
  else (roundHalfEvenDiv a.1.natAbs (-a.2).toNat : ℤ)

/-- The binary64 value of the Python literal `0.30`:
`(0.30).as_integer_ratio() == (5404319552844595, 2**54)`. -/
def w030 : ℤ × ℤ := (5404319552844595, -54)

/-- The binary64 value of the Python literal `0.35`:
`(0.35).as_integer_ratio() == (3152519739159347, 2**53)`. -/
def w035 : ℤ × ℤ := (3152519739159347, -53)

/-- The binary64 value of the Python literal `0.20`:
`(0.20).as_integer_ratio() == (3602879701896397, 2**54)`. -/
def w020 : ℤ × ℤ := (3602879701896397, -54)

/-- The binary64 value of the Python literal `0.15`:
`(0.15).as_integer_ratio() == (5404319552844595, 2**55)`. -/
def w015 : ℤ × ℤ := (5404319552844595, -55)

/- ## Score aggregator (`calculate_overall_score`) -/

/-- The fixed `weights` table, in insertion order, with each weight the
binary64 value of its source literal. -/
def floatWeights : List (Cat × (ℤ × ℤ)) :=
  [(Cat.seo, w030), (Cat.tracking, w035), (Cat.technical, w020), (Cat.meta_ads, w015)]

/-- `scores.get(k, 50)` over the four-category mapping. -/
def scoreGet (sc : ScoresMap) : Cat → Option ℤ
  | Cat.seo => sc.seo
  | Cat.tracking => sc.tracking
  | Cat.technical => sc.technical
  | Cat.meta_ads => sc.meta_ads

/-- `if not scores` on the category mapping: no key present. -/
def scoresMapIsEmpty (sc : ScoresMap) : Bool :=
  sc.seo.isNone && sc.tracking.isNone && sc.technical.isNone && sc.meta_ads.isNone

/-- The double computed by `sum(scores.get(k, 50) * w for k, w in
weights.items())`: each score (an int, converted exactly — scores are far
below 2^53) is multiplied by its weight in binary64, and the products are
accumulated left to right by binary64 addition starting from 0. -/
def calcOverallFp (sc : ScoresMap) : ℤ × ℤ :=
  (floatWeights.map (fun kw => fpMul ((scoreGet sc kw.1).getD 50, 0) kw.2)).foldl fpAdd (0, 0)

/-- `calculate_overall_score`: 0 on an empty mapping, otherwise Python's
`round` of the double-precision weighted sum with absent categories read
as 50. -/
def calcOverall (sc : ScoresMap) : ℤ :=
  if scoresMapIsEmpty sc then 0
  else pyRoundDy (calcOverallFp sc)

/- ## Opportunity generator (`generate_opportunities`) -/

/-- The conversion-tracking opportunity. -/
def gadsOpp : Opp := ⟨OppCat.google_ads, "Setup Google Ads Conversion Tracking"⟩

/-- The on-page SEO opportunity. -/
def seoOpp : Opp := ⟨OppCat.seo, "Optimizare SEO On-Page"⟩

/-- The platform-specific opportunity. -/
def platOpp (p : String) : Opp := ⟨OppCat.platform, "Optimizare specifică " ++ p⟩

/-- `generate_opportunities`: starting from the accumulated list, append the
conversion-tracking, on-page-SEO and platform opportunities under their
respective conditions, in source order. -/
def generateOpportunities (gadsDetected : Bool) (issues : List Issue)
    (platform : Option String) (opps : List Opp) : List Opp :=
  ((opps ++ (if gadsDetected = false then [gadsOpp] else [])) ++
   (if 2 ≤ (issues.filter (fun i => decide (i.category = Cat.seo))).length then [seoOpp] else [])) ++
  (match platform with
   | some p => if p = "Merchantpro" ∨ p = "Gomag" ∨ p = "Shopify" then [platOpp p] else []
   | none => [])

/- ## URL normalization (`__init__`) and the full pipeline -/

/-- `self.url = url if url.startswith('http') else f'https://{url}'`. -/
def normalizeUrl (url : String) : String :=
  if pyStartsWith "http" url then url else "https://" ++ url

/-- All issues accumulated in `results['issues']` over a successful run, in
run order: SEO, tracking, technical, Meta-Ads. -/
def allIssues (url domain : String) (doc : Doc) : List Issue :=
  seoIssues doc ++ trackingIssues doc.raw ++ technicalIssues url domain doc ++
  metaAdsIssues (hasFbPixel doc.raw)

/-- The category mapping right before `calculate_overall_score` runs. -/
def pipelineScoresMap (url domain : String) (doc : Doc) : ScoresMap :=
  ⟨some (seoScore doc), some (trackingScore doc.raw),
   some (technicalScore url domain doc), some (metaAdsScore (hasFbPixel doc.raw))⟩

/-- `run_full_analysis`: on fetch failure return the initial results with only
the error field set; on success run the analyzers in fixed order. -/
def runFullAnalysis (url domain : String) : FetchResult → AnalysisResult
  | FetchResult.failure msg =>
    { url := url, domain := domain, platform := none,
      scores := ⟨none, none, none, none, none⟩,
      issues := [], opportunities := [], error := some msg }
  | FetchResult.success doc =>
    { url := url, domain := domain,
      platform := some (detectPlatform doc.raw),
      scores := ⟨some (seoScore doc), some (trackingScore doc.raw),
                 some (technicalScore url domain doc),
                 some (metaAdsScore (hasFbPixel doc.raw)),
                 some (calcOverall (pipelineScoresMap url domain doc))⟩,
      issues := allIssues url domain doc,
      opportunities :=
        generateOpportunities (hasAW doc.raw) (allIssues url domain doc)
          (some (detectPlatform doc.raw)) (metaAdsOpps (hasFbPixel doc.raw)),
      error := none }

/- ## Definitions modelled from the spec's words (for refinement claims) -/

/-- Modelled from the spec: the `host` of an absolute URL, for the spec's
phrase `absolute URL on a different host than the target domain` — the text
between the `://` separator and the next `/`, `?` or `#`. -/
def specHostOf (src : String) : String :=
  (specHostTail src.toList).asString
where
  /-- Drop everything through the first `://`, then keep the host chars. -/
  specHostTail : List Char → List Char
    | ':' :: '/' :: '/' :: rest =>
      rest.takeWhile (fun c => c ≠ '/' && c ≠ '?' && c ≠ '#')
    | _ :: rest => specHostTail rest
    | [] => []

/-- Modelled from the spec: the input URL `carries a scheme` — a leading
letter followed by letters/digits/`+`/`-`/`.` and then a colon (RFC 3986). -/
def specHasScheme (s : String) : Bool :=
  match s.toList with
  | [] => false
  | c :: rest => c.isAlpha && specSchemeTail rest
where
  specSchemeTail : List Char → Bool
    | ':' :: _ => true
    | c :: rest =>
      (c.isAlpha || c.isDigit || c = '+' || c = '-' || c = '.') && specSchemeTail rest
    | [] => false

/- ## Helper lemmas -/

theorem clampScore_nonneg (x : ℤ) : 0 ≤ clampScore x := le_max_left 0 _

theorem clampScore_le (x : ℤ) : clampScore x ≤ 100 :=
  max_le (by norm_num) (min_le_left _ _)

theorem metaAdsScore_nonneg (b : Bool) : 0 ≤ metaAdsScore b := by
  unfold metaAdsScore; split_ifs <;> norm_num

theorem metaAdsScore_le (b : Bool) : metaAdsScore b ≤ 100 := by
  unfold metaAdsScore; split_ifs <;> norm_num

/- ## Lemmas about the binary64 model -/

/-- A number below `2^b` has bit length at most `b`. -/
theorem bitLenAux_le (fuel : Nat) :
    ∀ n b : Nat, n < 2 ^ b → b ≤ fuel → bitLenAux fuel n ≤ b := by
  induction fuel with
  | zero =>
    intro n b h hb
    simp [bitLenAux]
  | succ fuel ih =>
    intro n b h hb
    simp only [bitLenAux]
    split_ifs with hn
    · exact Nat.zero_le b
    · have hb1 : 1 ≤ b := by
        rcases Nat.eq_zero_or_pos b with hb0 | hb0
        · subst hb0
          rw [pow_zero] at h
          omega
        · exact hb0
      have hdiv : n / 2 < 2 ^ (b - 1) := by
        rw [Nat.div_lt_iff_lt_mul (by norm_num : 0 < 2)]
        calc n < 2 ^ b := h
          _ = 2 ^ (b - 1) * 2 := by
              rw [← pow_succ]
              congr 1
              omega
      have := ih (n / 2) (b - 1) hdiv (by omega)
      omega

/-- Rounding is the identity at shift 0. -/
theorem roundHalfEvenDiv_zero (n : Nat) : roundHalfEvenDiv n 0 = n := by
  unfold roundHalfEvenDiv
  rw [pow_zero, Nat.mod_one, Nat.div_one]
  norm_num

/-- The rounded quotient, rescaled, exceeds the numerator by at most half a
step. -/
theorem roundHalfEvenDiv_le (n k : Nat) :
    ((roundHalfEvenDiv n k : Nat) : ℚ) * 2 ^ k ≤ (n : ℚ) + 2 ^ k / 2 := by
  have hpos : 0 < 2 ^ k := by positivity
  have hmod := Nat.div_add_mod n (2 ^ k)
  have hq : ((n / 2 ^ k : Nat) : ℚ) * 2 ^ k ≤ (n : ℚ) := by
    exact_mod_cast Nat.div_mul_le_self n (2 ^ k)
  have hqpos : (0:ℚ) < 2 ^ k := by positivity
  unfold roundHalfEvenDiv
  split_ifs with h1 h2 h3
  · linarith
  · have hcast : ((2:ℚ) ^ k) < 2 * ((n % 2 ^ k : Nat) : ℚ) := by exact_mod_cast h2
    have hmodc : ((2:ℚ) ^ k) * ((n / 2 ^ k : Nat) : ℚ) + ((n % 2 ^ k : Nat) : ℚ) = (n : ℚ) := by
      exact_mod_cast hmod
    push_cast
    linarith
  · linarith
  · have htie : 2 * (n % 2 ^ k) = 2 ^ k := by omega
    have hcast : 2 * ((n % 2 ^ k : Nat) : ℚ) = ((2:ℚ) ^ k) := by exact_mod_cast htie
    have hmodc : ((2:ℚ) ^ k) * ((n / 2 ^ k : Nat) : ℚ) + ((n % 2 ^ k : Nat) : ℚ) = (n : ℚ) := by
      exact_mod_cast hmod
    push_cast
    linarith

theorem fpRound_fst_nonneg (m e : ℤ) (hm : 0 ≤ m) : 0 ≤ (fpRound m e).1 := by
  simp only [fpRound]
  rw [if_neg (not_lt.mpr hm)]
  exact Int.natCast_nonneg _

theorem fpRound_snd_ge (m e : ℤ) : e ≤ (fpRound m e).2 := by
  simp only [fpRound]
  omega

theorem dyVal_nonneg (a : ℤ × ℤ) (h : 0 ≤ a.1) : 0 ≤ dyVal a := by
  unfold dyVal
  apply mul_nonneg
  · exact_mod_cast h
  · positivity

theorem dyVal_pair_zero (s : ℤ) : dyVal (s, 0) = (s : ℚ) := by
  simp [dyVal]

/-- Value error of one binary64 rounding, for the magnitudes of this
computation: nonnegative input below 128 with exponent at least `-60`. -/
theorem fpRound_val_le (m e : ℤ) (hm : 0 ≤ m) (he : -60 ≤ e)
    (hv : dyVal (m, e) ≤ 128) :
    dyVal (fpRound m e) ≤ dyVal (m, e) + 1 / 1000000 := by
  have hmn : (m.natAbs : ℤ) = m := Int.natAbs_of_nonneg hm
  have hfp : fpRound m e =
      ((roundHalfEvenDiv m.natAbs (bitLen m.natAbs - 53) : ℤ),
        e + ((bitLen m.natAbs - 53 : ℕ) : ℤ)) := by
    simp only [fpRound]
    rw [if_neg (not_lt.mpr hm)]
  have hbase : dyVal (m, e) = (m.natAbs : ℚ) * (2:ℚ) ^ e := by
    have hq : (m:ℚ) = (m.natAbs : ℚ) := by
      rw [Int.cast_natAbs]
      exact_mod_cast (abs_of_nonneg hm).symm
    show (m:ℚ) * (2:ℚ) ^ e = (m.natAbs : ℚ) * (2:ℚ) ^ e
    rw [hq]
  have hval : dyVal (fpRound m e) =
      ((roundHalfEvenDiv m.natAbs (bitLen m.natAbs - 53) : ℕ) : ℚ) *
        2 ^ (bitLen m.natAbs - 53) * (2:ℚ) ^ e := by
    rw [hfp]
    show ((roundHalfEvenDiv m.natAbs (bitLen m.natAbs - 53) : ℤ) : ℚ) *
        (2:ℚ) ^ (e + ((bitLen m.natAbs - 53 : ℕ) : ℤ)) = _
    rw [zpow_add₀ (two_ne_zero : (2:ℚ) ≠ 0), zpow_natCast]
    push_cast
    ring
  by_cases hk0 : bitLen m.natAbs - 53 = 0
  · rw [hval, hk0, roundHalfEvenDiv_zero, hbase]
    simp only [pow_zero, mul_one]
    norm_num
  · have hn0 : m.natAbs ≠ 0 := by
      intro h0
      rw [h0] at hk0
      exact hk0 (by decide)
    have hn1 : 1 ≤ m.natAbs := Nat.one_le_iff_ne_zero.mpr hn0
    have hpe : (0:ℚ) < (2:ℚ) ^ e := by positivity
    have h2e : (2:ℚ) ^ e ≤ 128 := by
      have hstep : (1:ℚ) * (2:ℚ) ^ e ≤ (m.natAbs : ℚ) * (2:ℚ) ^ e := by
        apply mul_le_mul_of_nonneg_right _ (le_of_lt hpe)
        exact_mod_cast hn1
      rw [hbase] at hv
      linarith
    have he7 : e ≤ 7 := by
      by_contra hcon
      push_neg at hcon
      have h8 : (2:ℚ) ^ (8:ℤ) ≤ (2:ℚ) ^ e := by
        apply zpow_le_zpow_right₀ (by norm_num : (1:ℚ) ≤ 2)
        omega
      have h256 : (2:ℚ) ^ (8:ℤ) = 256 := by norm_num
      linarith
    have hBe : (((8 - e).toNat : ℤ)) = 8 - e := Int.toNat_of_nonneg (by omega)
    have hnB : m.natAbs < 2 ^ (8 - e).toNat := by
      have h1 : (m.natAbs : ℚ) * (2:ℚ) ^ e ≤ 128 := by rw [hbase] at hv; exact hv
      have h2 : (m.natAbs : ℚ) ≤ 128 / (2:ℚ) ^ e := by
        rw [le_div_iff hpe]
        exact h1
      have h3 : (128:ℚ) / (2:ℚ) ^ e < (2:ℚ) ^ (8 - e) := by
        rw [div_lt_iff hpe, ← zpow_add₀ (two_ne_zero : (2:ℚ) ≠ 0)]
        have : (8 : ℤ) - e + e = 8 := by omega
        rw [this]
        norm_num
      have h4 : (m.natAbs : ℚ) < (2:ℚ) ^ (((8 - e).toNat : ℤ)) := by
        rw [hBe]
        linarith
      have h5 : (m.natAbs : ℚ) < ((2 ^ (8 - e).toNat : ℕ) : ℚ) := by
        rw [zpow_natCast] at h4
        push_cast
        exact h4
      exact_mod_cast h5
    have hbl : bitLen m.natAbs ≤ (8 - e).toNat :=
      bitLenAux_le 128 m.natAbs (8 - e).toNat hnB (by omega)
    have hB54 : 54 ≤ (8 - e).toNat := by omega
    have hkB : bitLen m.natAbs - 53 ≤ (8 - e).toNat - 53 := by omega
    have hrhe := roundHalfEvenDiv_le m.natAbs (bitLen m.natAbs - 53)
    have hle1 : dyVal (fpRound m e) ≤
        ((m.natAbs : ℚ) + 2 ^ (bitLen m.natAbs - 53) / 2) * (2:ℚ) ^ e := by
      rw [hval]
      apply mul_le_mul_of_nonneg_right hrhe (le_of_lt hpe)
    have hpow : (2:ℚ) ^ (bitLen m.natAbs - 53) ≤ (2:ℚ) ^ ((8 - e).toNat - 53) :=
      pow_le_pow_right (by norm_num : (1:ℚ) ≤ 2) hkB
    have hid : (2:ℚ) ^ ((8 - e).toNat - 53) * (2:ℚ) ^ e = (2:ℚ) ^ ((-45 : ℤ)) := by
      have hc : (((8 - e).toNat - 53 : ℕ) : ℤ) = 8 - e - 53 := by omega
      rw [← zpow_natCast (2:ℚ) ((8 - e).toNat - 53), hc,
        ← zpow_add₀ (two_ne_zero : (2:ℚ) ≠ 0)]
      congr 1
      omega
    have hsmall : (2:ℚ) ^ ((-45:ℤ)) / 2 ≤ 1 / 1000000 := by norm_num
    have hmul := mul_le_mul_of_nonneg_right hpow (le_of_lt hpe)
    calc dyVal (fpRound m e)
        ≤ ((m.natAbs : ℚ) + 2 ^ (bitLen m.natAbs - 53) / 2) * (2:ℚ) ^ e := hle1
      _ = (m.natAbs : ℚ) * (2:ℚ) ^ e + (2:ℚ) ^ (bitLen m.natAbs - 53) * (2:ℚ) ^ e / 2 := by
          ring
      _ ≤ (m.natAbs : ℚ) * (2:ℚ) ^ e + (2:ℚ) ^ ((8 - e).toNat - 53) * (2:ℚ) ^ e / 2 := by
          linarith
      _ = dyVal (m, e) + (2:ℚ) ^ ((-45:ℤ)) / 2 := by rw [hid, hbase]
      _ ≤ dyVal (m, e) + 1 / 1000000 := by linarith

theorem dyVal_mul_pair (a b : ℤ × ℤ) :
    dyVal (a.1 * b.1, a.2 + b.2) = dyVal a * dyVal b := by
  unfold dyVal
  rw [zpow_add₀ (two_ne_zero : (2:ℚ) ≠ 0)]
  push_cast
  ring

/-- One binary64 multiplication: sign, exponent growth and value error. -/
theorem fpMul_bound (a b : ℤ × ℤ) (ha : 0 ≤ a.1) (hb : 0 ≤ b.1)
    (he : -60 ≤ a.2 + b.2) (hv : dyVal a * dyVal b ≤ 128) :
    0 ≤ (fpMul a b).1 ∧ a.2 + b.2 ≤ (fpMul a b).2 ∧
      dyVal (fpMul a b) ≤ dyVal a * dyVal b + 1 / 1000000 := by
  have hm : 0 ≤ a.1 * b.1 := mul_nonneg ha hb
  refine ⟨fpRound_fst_nonneg _ _ hm, fpRound_snd_ge _ _, ?_⟩
  have h1 := fpRound_val_le (a.1 * b.1) (a.2 + b.2) hm he
    (by rw [dyVal_mul_pair]; exact hv)
  rw [dyVal_mul_pair] at h1
  exact h1

/-- Alignment to the smaller exponent is exact. -/
theorem dyVal_align (m1 e1 m2 e2 : ℤ) (h : e1 ≤ e2) :
    dyVal (m1 + m2 * 2 ^ (e2 - e1).toNat, e1) = dyVal (m1, e1) + dyVal (m2, e2) := by
  unfold dyVal
  have h2 : (((e2 - e1).toNat : ℕ) : ℤ) = e2 - e1 := Int.toNat_of_nonneg (by omega)
  push_cast
  rw [add_mul]
  congr 1
  rw [mul_assoc]
  congr 1
  rw [← zpow_natCast (2:ℚ) (e2 - e1).toNat, h2, ← zpow_add₀ (two_ne_zero : (2:ℚ) ≠ 0)]
  congr 1
  omega

/-- One binary64 addition: sign, exponent growth and value error. -/
theorem fpAdd_bound (a b : ℤ × ℤ) (ha : 0 ≤ a.1) (hb : 0 ≤ b.1)
    (hea : -60 ≤ a.2) (heb : -60 ≤ b.2) (hv : dyVal a + dyVal b ≤ 128) :
    0 ≤ (fpAdd a b).1 ∧ min a.2 b.2 ≤ (fpAdd a b).2 ∧
      dyVal (fpAdd a b) ≤ dyVal a + dyVal b + 1 / 1000000 := by
  unfold fpAdd
  split_ifs with hle
  · have hm : 0 ≤ a.1 + b.1 * 2 ^ (b.2 - a.2).toNat := by positivity
    have hal : dyVal (a.1 + b.1 * 2 ^ (b.2 - a.2).toNat, a.2) = dyVal a + dyVal b :=
      dyVal_align a.1 a.2 b.1 b.2 hle
    refine ⟨fpRound_fst_nonneg _ _ hm, ?_, ?_⟩
    · exact le_trans (min_le_left _ _) (fpRound_snd_ge _ _)
    · have h1 := fpRound_val_le _ a.2 hm hea (by rw [hal]; exact hv)
      rw [hal] at h1
      exact h1
  · have hle2 : b.2 ≤ a.2 := le_of_not_le hle
    have hm : 0 ≤ a.1 * 2 ^ (a.2 - b.2).toNat + b.1 := by positivity
    have hal : dyVal (a.1 * 2 ^ (a.2 - b.2).toNat + b.1, b.2) = dyVal a + dyVal b := by
      rw [add_comm (a.1 * 2 ^ (a.2 - b.2).toNat) b.1]
      rw [dyVal_align b.1 b.2 a.1 a.2 hle2]
      rw [add_comm]
    refine ⟨fpRound_fst_nonneg _ _ hm, ?_, ?_⟩
    · exact le_trans (min_le_right _ _) (fpRound_snd_ge _ _)
    · have h1 := fpRound_val_le _ b.2 hm heb (by rw [hal]; exact hv)
      rw [hal] at h1
      exact h1

theorem pyRoundDy_nonneg (a : ℤ × ℤ) (h : 0 ≤ a.1) : 0 ≤ pyRoundDy a := by
  unfold pyRoundDy
  split_ifs with h1 h2
  · exact mul_nonneg h (by positivity)
  · omega
  · exact Int.natCast_nonneg _

/-- Python `round` of a nonnegative double strictly below `B + 1/2` is at
most `B`. -/
theorem pyRoundDy_le (a : ℤ × ℤ) (B : ℤ) (h : 0 ≤ a.1)
    (hv : dyVal a < (B:ℚ) + 1/2) : pyRoundDy a ≤ B := by
  unfold pyRoundDy
  split_ifs with h1 h2
  · have hdv : dyVal a = ((a.1 * 2 ^ a.2.toNat : ℤ) : ℚ) := by
      show (a.1:ℚ) * (2:ℚ) ^ a.2 = ((a.1 * 2 ^ a.2.toNat : ℤ) : ℚ)
      push_cast
      rw [← zpow_natCast (2:ℚ) a.2.toNat, Int.toNat_of_nonneg h1]
    have hlt : ((a.1 * 2 ^ a.2.toNat : ℤ) : ℚ) < (B:ℚ) + 1 := by
      rw [← hdv]
      linarith
    have : a.1 * 2 ^ a.2.toNat < B + 1 := by exact_mod_cast hlt
    omega
  · omega
  · push_neg at h1
    have hke : (((-a.2).toNat : ℕ) : ℤ) = -a.2 := Int.toNat_of_nonneg (by omega)
    have hna : (a.1.natAbs : ℤ) = a.1 := Int.natAbs_of_nonneg h
    have hdv : dyVal a * 2 ^ (-a.2).toNat = (a.1.natAbs : ℚ) := by
      unfold dyVal
      calc (a.1:ℚ) * (2:ℚ) ^ a.2 * 2 ^ (-a.2).toNat
          = (a.1:ℚ) * ((2:ℚ) ^ a.2 * (2:ℚ) ^ (((-a.2).toNat : ℤ))) := by
            rw [zpow_natCast]
            ring
        _ = (a.1:ℚ) * (2:ℚ) ^ (a.2 + ((-a.2).toNat : ℤ)) := by
            rw [zpow_add₀ (two_ne_zero : (2:ℚ) ≠ 0)]
        _ = (a.1:ℚ) := by
            rw [show a.2 + (((-a.2).toNat : ℕ) : ℤ) = 0 by omega, zpow_zero, mul_one]
        _ = (a.1.natAbs : ℚ) := by
            rw [Int.cast_natAbs]
            exact_mod_cast (abs_of_nonneg h).symm
    have hp : (0:ℚ) < 2 ^ (-a.2).toNat := by positivity
    have hrhe := roundHalfEvenDiv_le a.1.natAbs (-a.2).toNat
    have hmul := mul_lt_mul_of_pos_right hv hp
    have hchain : ((roundHalfEvenDiv a.1.natAbs (-a.2).toNat : ℕ) : ℚ) * 2 ^ (-a.2).toNat <
        ((B:ℚ) + 1) * 2 ^ (-a.2).toNat := by
      calc ((roundHalfEvenDiv a.1.natAbs (-a.2).toNat : ℕ) : ℚ) * 2 ^ (-a.2).toNat
          ≤ (a.1.natAbs : ℚ) + 2 ^ (-a.2).toNat / 2 := hrhe
        _ = dyVal a * 2 ^ (-a.2).toNat + 2 ^ (-a.2).toNat / 2 := by rw [hdv]
        _ < ((B:ℚ) + 1/2) * 2 ^ (-a.2).toNat + 2 ^ (-a.2).toNat / 2 := by linarith
        _ = ((B:ℚ) + 1) * 2 ^ (-a.2).toNat := by ring
    have hlt : ((roundHalfEvenDiv a.1.natAbs (-a.2).toNat : ℕ) : ℚ) < (B:ℚ) + 1 :=
      lt_of_mul_lt_mul_right hchain (le_of_lt hp)
    have : ((roundHalfEvenDiv a.1.natAbs (-a.2).toNat : ℕ) : ℤ) < B + 1 := by
      exact_mod_cast hlt
    omega

/-- Each stored weight is the correctly rounded binary64 value of its source
literal: it lies strictly within half an ulp of the exact decimal. -/
theorem weights_correctly_rounded :
    |dyVal w030 - 30/100| < (2:ℚ) ^ ((-55:ℤ)) ∧
    |dyVal w035 - 35/100| < (2:ℚ) ^ ((-54:ℤ)) ∧
    |dyVal w020 - 20/100| < (2:ℚ) ^ ((-55:ℤ)) ∧
    |dyVal w015 - 15/100| < (2:ℚ) ^ ((-56:ℤ)) := by
  refine ⟨?_, ?_, ?_, ?_⟩ <;>
    · rw [abs_sub_lt_iff]
      constructor <;> norm_num [dyVal, w030, w035, w020, w015]

theorem dyVal_w030_le : dyVal w030 ≤ 3001 / 10000 := by
  norm_num [dyVal, w030]

theorem dyVal_w035_le : dyVal w035 ≤ 3501 / 10000 := by
  norm_num [dyVal, w035]

theorem dyVal_w020_le : dyVal w020 ≤ 2001 / 10000 := by
  norm_num [dyVal, w020]

theorem dyVal_w015_le : dyVal w015 ≤ 1501 / 10000 := by
  norm_num [dyVal, w015]

/-- Bounds for the aggregated score over a fully populated mapping with
category scores in [0, 100]. -/
theorem calcOverall_mem_range (a b c d : ℤ)
    (ha1 : 0 ≤ a) (ha2 : a ≤ 100) (hb1 : 0 ≤ b) (hb2 : b ≤ 100)
    (hc1 : 0 ≤ c) (hc2 : c ≤ 100) (hd1 : 0 ≤ d) (hd2 : d ≤ 100) :
    0 ≤ calcOverall ⟨some a, some b, some c, some d⟩ ∧
      calcOverall ⟨some a, some b, some c, some d⟩ ≤ 100 := by
  have haq : (a:ℚ) ≤ 100 := by exact_mod_cast ha2
  have hbq : (b:ℚ) ≤ 100 := by exact_mod_cast hb2
  have hcq : (c:ℚ) ≤ 100 := by exact_mod_cast hc2
  have hdq : (d:ℚ) ≤ 100 := by exact_mod_cast hd2
  have haq0 : (0:ℚ) ≤ (a:ℚ) := by exact_mod_cast ha1
  have hbq0 : (0:ℚ) ≤ (b:ℚ) := by exact_mod_cast hb1
  have hcq0 : (0:ℚ) ≤ (c:ℚ) := by exact_mod_cast hc1
  have hdq0 : (0:ℚ) ≤ (d:ℚ) := by exact_mod_cast hd1
  have hw030n : (0:ℤ) ≤ w030.1 := by norm_num [w030]
  have hw035n : (0:ℤ) ≤ w035.1 := by norm_num [w035]
  have hw020n : (0:ℤ) ≤ w020.1 := by norm_num [w020]
  have hw015n : (0:ℤ) ≤ w015.1 := by norm_num [w015]
  have hw030v : (0:ℚ) ≤ dyVal w030 := dyVal_nonneg _ hw030n
  have hw035v : (0:ℚ) ≤ dyVal w035 := dyVal_nonneg _ hw035n
  have hw020v : (0:ℚ) ≤ dyVal w020 := dyVal_nonneg _ hw020n
  have hw015v : (0:ℚ) ≤ dyVal w015 := dyVal_nonneg _ hw015n
  -- the four products
  have ht1 := fpMul_bound (a, 0) w030 ha1 hw030n (by norm_num [w030])
    (by rw [dyVal_pair_zero]
        have h := mul_le_mul haq dyVal_w030_le hw030v (by norm_num)
        linarith)
  have ht2 := fpMul_bound (b, 0) w035 hb1 hw035n (by norm_num [w035])
    (by rw [dyVal_pair_zero]
        have h := mul_le_mul hbq dyVal_w035_le hw035v (by norm_num)
        linarith)
  have ht3 := fpMul_bound (c, 0) w020 hc1 hw020n (by norm_num [w020])
    (by rw [dyVal_pair_zero]
        have h := mul_le_mul hcq dyVal_w020_le hw020v (by norm_num)
        linarith)
  have ht4 := fpMul_bound (d, 0) w015 hd1 hw015n (by norm_num [w015])
    (by rw [dyVal_pair_zero]
        have h := mul_le_mul hdq dyVal_w015_le hw015v (by norm_num)
        linarith)
  obtain ⟨ht1n, ht1e, ht1v⟩ := ht1
  obtain ⟨ht2n, ht2e, ht2v⟩ := ht2
  obtain ⟨ht3n, ht3e, ht3v⟩ := ht3
  obtain ⟨ht4n, ht4e, ht4v⟩ := ht4
  have hw030e : w030.2 = -54 := rfl
  have hw035e : w035.2 = -53 := rfl
  have hw020e : w020.2 = -54 := rfl
  have hw015e : w015.2 = -55 := rfl
  -- value bounds of the products
  have hv1 : dyVal (fpMul (a, 0) w030) ≤ 30.02 := by
    rw [dyVal_pair_zero] at ht1v
    have h := mul_le_mul haq dyVal_w030_le hw030v (by norm_num)
    linarith
  have hv2 : dyVal (fpMul (b, 0) w035) ≤ 35.02 := by
    rw [dyVal_pair_zero] at ht2v
    have h := mul_le_mul hbq dyVal_w035_le hw035v (by norm_num)
    linarith
  have hv3 : dyVal (fpMul (c, 0) w020) ≤ 20.02 := by
    rw [dyVal_pair_zero] at ht3v
    have h := mul_le_mul hcq dyVal_w020_le hw020v (by norm_num)
    linarith
  have hv4 : dyVal (fpMul (d, 0) w015) ≤ 15.02 := by
    rw [dyVal_pair_zero] at ht4v
    have h := mul_le_mul hdq dyVal_w015_le hw015v (by norm_num)
    linarith
  -- the four additions, left to right from 0
  have hz : dyVal ((0:ℤ), (0:ℤ)) = 0 := by simp [dyVal]
  have hp1 := fpAdd_bound (0, 0) (fpMul (a, 0) w030) (by norm_num) ht1n
    (by norm_num) (by omega) (by rw [hz]; linarith)
  obtain ⟨hp1n, hp1e, hp1v⟩ := hp1
  have hp1v2 : dyVal (fpAdd (0, 0) (fpMul (a, 0) w030)) ≤ 30.03 := by
    rw [hz] at hp1v
    linarith
  have hp1e2 : -55 ≤ (fpAdd (0, 0) (fpMul (a, 0) w030)).2 := by
    have : min (0:ℤ) (fpMul (a, 0) w030).2 ≥ -55 := le_min (by norm_num) (by omega)
    omega
  have hp2 := fpAdd_bound (fpAdd (0, 0) (fpMul (a, 0) w030)) (fpMul (b, 0) w035)
    hp1n ht2n (by omega) (by omega) (by linarith)
  obtain ⟨hp2n, hp2e, hp2v⟩ := hp2
  have hp2v2 : dyVal (fpAdd (fpAdd (0, 0) (fpMul (a, 0) w030)) (fpMul (b, 0) w035)) ≤ 65.06 := by
    linarith
  have hp2e2 : -55 ≤ (fpAdd (fpAdd (0, 0) (fpMul (a, 0) w030)) (fpMul (b, 0) w035)).2 := by
    have : min (fpAdd (0, 0) (fpMul (a, 0) w030)).2 (fpMul (b, 0) w035).2 ≥ -55 :=
      le_min (by omega) (by omega)
    omega
  have hp3 := fpAdd_bound
    (fpAdd (fpAdd (0, 0) (fpMul (a, 0) w030)) (fpMul (b, 0) w035)) (fpMul (c, 0) w020)
    hp2n ht3n (by omega) (by omega) (by linarith)
  obtain ⟨hp3n, hp3e, hp3v⟩ := hp3
  have hp3v2 : dyVal (fpAdd (fpAdd (fpAdd (0, 0) (fpMul (a, 0) w030)) (fpMul (b, 0) w035))
      (fpMul (c, 0) w020)) ≤ 85.09 := by
    linarith
  have hp3e2 : -55 ≤ (fpAdd (fpAdd (fpAdd (0, 0) (fpMul (a, 0) w030)) (fpMul (b, 0) w035))
      (fpMul (c, 0) w020)).2 := by
    have : min (fpAdd (fpAdd (0, 0) (fpMul (a, 0) w030)) (fpMul (b, 0) w035)).2
        (fpMul (c, 0) w020).2 ≥ -55 := le_min (by omega) (by omega)
    omega
  have hp4 := fpAdd_bound
    (fpAdd (fpAdd (fpAdd (0, 0) (fpMul (a, 0) w030)) (fpMul (b, 0) w035)) (fpMul (c, 0) w020))
    (fpMul (d, 0) w015) hp3n ht4n (by omega) (by omega) (by linarith)
  obtain ⟨hp4n, hp4e, hp4v⟩ := hp4
  have hp4v2 : dyVal (fpAdd (fpAdd (fpAdd (fpAdd (0, 0) (fpMul (a, 0) w030))
      (fpMul (b, 0) w035)) (fpMul (c, 0) w020)) (fpMul (d, 0) w015)) < (100:ℚ) + 1/2 := by
    linarith
  have hcalc : calcOverall ⟨some a, some b, some c, some d⟩ =
      pyRoundDy (fpAdd (fpAdd (fpAdd (fpAdd (0, 0) (fpMul (a, 0) w030))
        (fpMul (b, 0) w035)) (fpMul (c, 0) w020)) (fpMul (d, 0) w015)) := rfl
  rw [hcalc]
  exact ⟨pyRoundDy_nonneg _ hp4n, pyRoundDy_le _ 100 hp4n hp4v2⟩

/- ## C1 -/

/-- C1 (amended): for category scores in [0, 100], the overall score equals
Python's `round` applied to the binary64 evaluation of
`seo*0.30 + tracking*0.35 + technical*0.20 + meta_ads*0.15` (each product
and each running sum rounded to double precision, absent categories read as
50), and is 0 when the category-score mapping is empty. -/
theorem overall_score_formula (sc : ScoresMap)
    (h1 : 0 ≤ sc.seo.getD 50 ∧ sc.seo.getD 50 ≤ 100)
    (h2 : 0 ≤ sc.tracking.getD 50 ∧ sc.tracking.getD 50 ≤ 100)
    (h3 : 0 ≤ sc.technical.getD 50 ∧ sc.technical.getD 50 ≤ 100)
    (h4 : 0 ≤ sc.meta_ads.getD 50 ∧ sc.meta_ads.getD 50 ≤ 100) :
    calcOverall sc =
      if scoresMapIsEmpty sc then 0
      else pyRoundDy (fpAdd (fpAdd (fpAdd (fpAdd (0, 0)
        (fpMul (sc.seo.getD 50, 0) w030))
        (fpMul (sc.tracking.getD 50, 0) w035))
        (fpMul (sc.technical.getD 50, 0) w020))
        (fpMul (sc.meta_ads.getD 50, 0) w015)) := rfl

/-- Witness for C1 at the concrete mapping (39, 64, 77, 40). -/
theorem overall_score_formula_witness :
    calcOverall ⟨some 39, some 64, some 77, some 40⟩ =
      if scoresMapIsEmpty ⟨some 39, some 64, some 77, some 40⟩ then 0
      else pyRoundDy (fpAdd (fpAdd (fpAdd (fpAdd (0, 0)
        (fpMul ((39:ℤ), 0) w030)) (fpMul ((64:ℤ), 0) w035))
        (fpMul ((77:ℤ), 0) w020)) (fpMul ((40:ℤ), 0) w015)) :=
  overall_score_formula ⟨some 39, some 64, some 77, some 40⟩
    (by decide) (by decide) (by decide) (by decide)

/-- C1 counterexample: at the reachable mapping (seo 39, tracking 64,
technical 77, meta_ads 40) the program's double-precision sum is
`55.49999999999999` and `calculate_overall_score` stores 55, while the
claim's exact-rational `round(39*0.30 + 64*0.35 + 77*0.20 + 40*0.15)` is
`round(55.5) = 56`. -/
theorem overall_round_float_counterexample :
    calcOverall ⟨some 39, some 64, some 77, some 40⟩ = 55 ∧
    pyRound (((39:ℤ):ℚ) * 0.30 + ((64:ℤ):ℚ) * 0.35 +
      ((77:ℤ):ℚ) * 0.20 + ((40:ℤ):ℚ) * 0.15) = 56 ∧
    (55 : ℤ) ≠ 56 := by
  refine ⟨by decide, ?_, by decide⟩
  have h : ((39:ℤ):ℚ) * 0.30 + ((64:ℤ):ℚ) * 0.35 +
      ((77:ℤ):ℚ) * 0.20 + ((40:ℤ):ℚ) * 0.15 = 111/2 := by norm_num
  rw [h]
  have hf : ⌊(111/2 : ℚ)⌋ = 55 := by
    rw [Int.floor_eq_iff]
    norm_num
  simp only [pyRound, hf]
  norm_num

/- ## C5 -/

/-- C5: on any fetch failure the result carries the failure text in its
error field while the scores mapping, the issue list and the opportunity
list stay empty — the pipeline runs no analyzer and returns normally. -/
theorem fetch_failure_result (url domain msg : String) :
    (runFullAnalysis url domain (FetchResult.failure msg)).error = some msg ∧
    (runFullAnalysis url domain (FetchResult.failure msg)).scores = ⟨none, none, none, none, none⟩ ∧
    (runFullAnalysis url domain (FetchResult.failure msg)).issues = [] ∧
    (runFullAnalysis url domain (FetchResult.failure msg)).opportunities = [] :=
  ⟨rfl, rfl, rfl, rfl⟩

/- ## C6 -/

/-- C6: with Google Ads conversion tracking undetected, at least two
SEO-category issues, and a recognized platform, the opportunity generator
started on an empty list emits exactly the three opportunities
conversion-tracking, on-page SEO, platform-specific, in that order. -/
theorem opportunity_generator_three (gads : Bool) (issues : List Issue) (p : String)
    (h1 : gads = false)
    (h2 : 2 ≤ (issues.filter (fun i => decide (i.category = Cat.seo))).length)
    (h3 : p = "Merchantpro" ∨ p = "Gomag" ∨ p = "Shopify") :
    generateOpportunities gads issues (some p) [] = [gadsOpp, seoOpp, platOpp p] := by
  subst h1
  unfold generateOpportunities
  rw [if_pos rfl, if_pos h2]
  simp [h3]

/-- Two SEO-category issues used to instantiate the generator. -/
def demoSeoIssues : List Issue :=
  [⟨IssueKind.titleMissing, Sev.error, Cat.seo, "Title tag lipsă"⟩,
   ⟨IssueKind.canonicalMissing, Sev.warning, Cat.seo, "Canonical URL lipsă"⟩]

/-- Witness for C6 at a concrete analysis state. -/
theorem opportunity_generator_three_witness :
    generateOpportunities false demoSeoIssues (some "Shopify") [] =
      [gadsOpp, seoOpp, platOpp "Shopify"] :=
  opportunity_generator_three false demoSeoIssues "Shopify" rfl (by decide)
    (Or.inr (Or.inr rfl))

/- ## C9 -/

/-- C9 (amended): the analyzer's target URL is the input unchanged when the
input starts with the literal `http`, and `https://` prepended otherwise. -/
theorem url_scheme_normalization (url : String) :
    (pyStartsWith "http" url = true → normalizeUrl url = url) ∧
    (pyStartsWith "http" url = false → normalizeUrl url = "https://" ++ url) := by
  constructor <;> intro h <;> simp [normalizeUrl, h]

/-- Witness for C9 on concrete inputs. -/
theorem url_scheme_normalization_witness :
    normalizeUrl "http://example.ro" = "http://example.ro" ∧
    normalizeUrl "example.ro" = "https://example.ro" :=
  ⟨(url_scheme_normalization "http://example.ro").1 (by decide),
   (url_scheme_normalization "example.ro").2 (by decide)⟩

/-- C9 counterexample: the check is the literal prefix `http`, not scheme
presence — `httpx` carries no scheme yet stays unchanged, and `ftp://…`
carries a scheme yet gets `https://` prepended. -/
theorem url_scheme_counterexample :
    specHasScheme "httpx" = false ∧ normalizeUrl "httpx" ≠ "https://httpx" ∧
    specHasScheme "ftp://example.com" = true ∧
    normalizeUrl "ftp://example.com" ≠ "ftp://example.com" := by decide

/- ## C3 -/

/-- C3 (amended): with GTM, GA4 and a Google Ads conversion tag all detected,
the Facebook Pixel detected and exactly 3 of the 5 named events present, the
tracking analyzer emits no issue at all — the incomplete-events warning
requires fewer than 3 events — and the tracking score is 100. -/
theorem tracking_fully_tagged_score (html : List Char)
    (h1 : hasGTM html = true) (h2 : hasGA4 html = true) (h3 : hasAW html = true)
    (h4 : hasFbPixel html = true) (h5 : (fbEvents html).length = 3) :
    trackingIssues html = [] ∧ trackingScore html = 100 := by
  have hIss : trackingIssues html = [] := by
    simp [trackingIssues, gtmBlock, ga4Block, awBlock, fbBlock, h1, h2, h3, h4, h5]
  refine ⟨hIss, ?_⟩
  unfold trackingScore
  rw [hIss]
  decide

/-- The document text of the spec's tracking test property: the three Google
identifiers, a pixel init call, and exactly the events Purchase, AddToCart,
ViewContent. -/
def c3Html : String :=
  "GTM-ABC123 G-XYZ7890 AW-12345 fbq('init','99') 'Purchase' 'AddToCart' 'ViewContent'"

/-- Witness for C3 on the concrete document. -/
theorem tracking_fully_tagged_score_witness :
    trackingIssues c3Html.toList = [] ∧ trackingScore c3Html.toList = 100 :=
  tracking_fully_tagged_score c3Html.toList (by decide) (by decide) (by decide)
    (by decide) (by decide)

/-- C3 counterexample: a document satisfying all of the claim's premises
(the three literal identifiers, a pixel init call, exactly 3 of the 5 named
events) yields zero tracking warnings and a tracking score of 100, not one
warning and 90. -/
theorem tracking_three_events_counterexample :
    listContains "GTM-ABC123".toList c3Html.toList = true ∧
    listContains "G-XYZ7890".toList c3Html.toList = true ∧
    listContains "AW-12345".toList c3Html.toList = true ∧
    hasFbPixel c3Html.toList = true ∧
    (fbEvents c3Html.toList).length = 3 ∧
    ((trackingIssues c3Html.toList).filter (fun i => decide (i.type = Sev.warning))).length = 0 ∧
    trackingScore c3Html.toList = 100 := by decide

/- ## C4 -/

/-- When no signature of any entry occurs, the scan loop finds nothing. -/
theorem detectFrom_eq_none (text : List Char) (l : List (String × List String))
    (h : ∀ e ∈ l, ∀ sig ∈ e.2, listContains sig.toList text = false) :
    detectPlatformFrom text l = none := by
  induction l with
  | nil => rfl
  | cons e rest ih =>
    obtain ⟨name, sigs⟩ := e
    have hhead : sigs.any (fun sig => listContains sig.toList text) = false := by
      rw [List.any_eq_false]
      intro sig hs
      rw [h (name, sigs) (List.mem_cons_self _ _) sig hs]
      simp
    simp only [detectPlatformFrom, hhead]
    simp only [Bool.false_eq_true, if_false]
    exact ih (fun e he sig hs => h e (List.mem_cons_of_mem _ he) sig hs)

/-- The scan loop returns the first entry with an occurring signature when
every earlier entry has none. -/
theorem detectFrom_first_match (text : List Char) (pre : List (String × List String))
    (entry : String × List String) (post : List (String × List String))
    (hpre : ∀ e ∈ pre, ∀ sig ∈ e.2, listContains sig.toList text = false)
    (hm : ∃ sig ∈ entry.2, listContains sig.toList text = true) :
    detectPlatformFrom text (pre ++ entry :: post) = some entry.1 := by
  induction pre with
  | nil =>
    obtain ⟨name, sigs⟩ := entry
    have hhead : sigs.any (fun sig => listContains sig.toList text) = true := by
      rw [List.any_eq_true]
      obtain ⟨sig, hs, hc⟩ := hm
      exact ⟨sig, hs, by simpa using hc⟩
    simp only [List.nil_append, detectPlatformFrom, hhead, if_true]
  | cons e rest ih =>
    obtain ⟨name, sigs⟩ := e
    have hhead : sigs.any (fun sig => listContains sig.toList text) = false := by
      rw [List.any_eq_false]
      intro sig hs
      rw [hpre (name, sigs) (List.mem_cons_self _ _) sig hs]
      simp
    simp only [List.cons_append, detectPlatformFrom, hhead]
    simp only [Bool.false_eq_true, if_false]
    exact ih (fun e he sig hs => hpre e (List.mem_cons_of_mem _ he) sig hs)

/-- C4: platform detection scans the ordered table and reports the display
name of the first entry one of whose signatures occurs in the lower-cased
markup, `"Unknown"` when none occurs; it is deterministic and idempotent,
and the table order is the tie-break. -/
theorem detect_platform_spec (raw : List Char) :
    (detectPlatform raw = detectPlatform raw) ∧
    ((∀ e ∈ platformTable, ∀ sig ∈ e.2, sigOccurs sig raw = false) →
      detectPlatform raw = "Unknown") ∧
    (∀ pre entry post, platformTable = pre ++ entry :: post →
      (∀ e ∈ pre, ∀ sig ∈ e.2, sigOccurs sig raw = false) →
      (∃ sig ∈ entry.2, sigOccurs sig raw = true) →
      detectPlatform raw = pyCapitalize entry.1) := by
  refine ⟨rfl, ?_, ?_⟩
  · intro h
    unfold detectPlatform
    rw [detectFrom_eq_none (pyLower raw) platformTable (fun e he sig hs => h e he sig hs)]
  · intro pre entry post htab hpre hm
    unfold detectPlatform
    rw [htab, detectFrom_first_match (pyLower raw) pre entry post
      (fun e he sig hs => hpre e he sig hs) hm]

/-- Markup in which signatures of both `shopify` (3rd entry) and `magento`
(5th entry) occur, `magento` first in the text. -/
def c4Html : String := "x magento y cdn.shopify"

/-- Witness for C4: the earlier table entry wins irrespective of text
position. -/
theorem detect_platform_spec_witness : detectPlatform c4Html.toList = "Shopify" := by
  have h := (detect_platform_spec c4Html.toList).2.2
    [("merchantpro", ["merchantpro", "mp-"]), ("gomag", ["gomag", "gomag.ro"])]
    ("shopify", ["shopify", "cdn.shopify"])
    [("woocommerce", ["woocommerce", "wp-content/plugins/woocommerce"]),
     ("magento", ["magento", "mage"]), ("prestashop", ["prestashop", "presta"]),
     ("opencart", ["opencart"]), ("vtex", ["vtex"])]
    rfl (by decide) ⟨"cdn.shopify", by decide, by decide⟩
  exact h.trans (by decide)

/- ## Block filter lemmas for the SEO and technical issue lists -/

theorem titleBlock_filter_alt (doc : Doc) :
    (titleBlock doc).filter (fun i => decide (i.kind = IssueKind.imagesAlt)) = [] := by
  unfold titleBlock; split_ifs <;> rfl

theorem metaBlock_filter_alt (doc : Doc) :
    (metaBlock doc).filter (fun i => decide (i.kind = IssueKind.imagesAlt)) = [] := by
  unfold metaBlock; split_ifs <;> rfl

theorem h1Block_filter_alt (doc : Doc) :
    (h1Block doc).filter (fun i => decide (i.kind = IssueKind.imagesAlt)) = [] := by
  unfold h1Block; split_ifs <;> rfl

theorem imgBlock_filter_alt (doc : Doc) :
    (imgBlock doc).filter (fun i => decide (i.kind = IssueKind.imagesAlt)) = imgBlock doc := by
  unfold imgBlock; split_ifs <;> rfl

theorem canonicalBlock_filter_alt (doc : Doc) :
    (canonicalBlock doc).filter (fun i => decide (i.kind = IssueKind.imagesAlt)) = [] := by
  unfold canonicalBlock; split_ifs <;> rfl

theorem ogBlock_filter_alt (doc : Doc) :
    (ogBlock doc).filter (fun i => decide (i.kind = IssueKind.imagesAlt)) = [] := by
  unfold ogBlock; split_ifs <;> rfl

theorem schemaBlock_filter_alt (doc : Doc) :
    (schemaBlock doc).filter (fun i => decide (i.kind = IssueKind.imagesAlt)) = [] := by
  unfold schemaBlock; split_ifs <;> rfl

theorem titleBlock_missing_filter_short (doc : Doc)
    (h : strTruthy (seoTitle doc) = false) :
    (titleBlock doc).filter (fun i => decide (i.kind = IssueKind.titleShort)) = [] := by
  unfold titleBlock
  rw [if_pos (by simp [h])]
  rfl

theorem metaBlock_filter_short (doc : Doc) :
    (metaBlock doc).filter (fun i => decide (i.kind = IssueKind.titleShort)) = [] := by
  unfold metaBlock; split_ifs <;> rfl

theorem h1Block_filter_short (doc : Doc) :
    (h1Block doc).filter (fun i => decide (i.kind = IssueKind.titleShort)) = [] := by
  unfold h1Block; split_ifs <;> rfl

theorem imgBlock_filter_short (doc : Doc) :
    (imgBlock doc).filter (fun i => decide (i.kind = IssueKind.titleShort)) = [] := by
  unfold imgBlock; split_ifs <;> rfl

theorem canonicalBlock_filter_short (doc : Doc) :
    (canonicalBlock doc).filter (fun i => decide (i.kind = IssueKind.titleShort)) = [] := by
  unfold canonicalBlock; split_ifs <;> rfl

theorem ogBlock_filter_short (doc : Doc) :
    (ogBlock doc).filter (fun i => decide (i.kind = IssueKind.titleShort)) = [] := by
  unfold ogBlock; split_ifs <;> rfl

theorem schemaBlock_filter_short (doc : Doc) :
    (schemaBlock doc).filter (fun i => decide (i.kind = IssueKind.titleShort)) = [] := by
  unfold schemaBlock; split_ifs <;> rfl

theorem viewportBlock_filter_ext (doc : Doc) :
    (viewportBlock doc).filter (fun i => decide (i.kind = IssueKind.manyExternalScripts)) = [] := by
  unfold viewportBlock; split_ifs <;> rfl

theorem httpsBlock_filter_ext (url : String) :
    (httpsBlock url).filter (fun i => decide (i.kind = IssueKind.manyExternalScripts)) = [] := by
  unfold httpsBlock; split_ifs <;> rfl

theorem extBlock_filter_ext (domain : String) (doc : Doc) :
    (extBlock domain doc).filter (fun i => decide (i.kind = IssueKind.manyExternalScripts)) =
      extBlock domain doc := by
  unfold extBlock; split_ifs <;> rfl

theorem cookieBlock_filter_ext (raw : List Char) :
    (cookieBlock raw).filter (fun i => decide (i.kind = IssueKind.manyExternalScripts)) = [] := by
  unfold cookieBlock; split_ifs <;> rfl

/- ## C7 -/

/-- C7: the SEO analyzer emits the image-alt issue exactly when some image
lacks a (non-blank) alt attribute, with severity `error` when the rounded
missing percentage `round(missing / max(total, 1) * 100)` reaches 50 and
`warning` below. -/
theorem images_alt_issue_rule (doc : Doc) :
    (seoIssues doc).filter (fun i => decide (i.kind = IssueKind.imagesAlt)) =
      if 0 < imagesWithoutAlt doc then
        [⟨IssueKind.imagesAlt,
          (if pyRoundNatDiv (imagesWithoutAlt doc * 100) (max doc.imgAlts.length 1) < 50
           then Sev.warning else Sev.error), Cat.seo,
          toString (imagesWithoutAlt doc) ++ " imagini fără ALT (" ++
            toString (pyRoundNatDiv (imagesWithoutAlt doc * 100) (max doc.imgAlts.length 1)) ++ "%)"⟩]
      else [] := by
  unfold seoIssues
  simp only [List.filter_append, titleBlock_filter_alt, metaBlock_filter_alt,
    h1Block_filter_alt, imgBlock_filter_alt, canonicalBlock_filter_alt,
    ogBlock_filter_alt, schemaBlock_filter_alt, List.nil_append, List.append_nil]
  rfl

/- ## C8 -/

/-- C8 (amended): the technical analyzer counts the script tags whose `src`
starts with `http` and does not contain the target domain as a substring,
and emits the external-scripts warning, whose title names that count, if and
only if the count exceeds 15. -/
theorem external_scripts_warning_rule (url domain : String) (doc : Doc) :
    (technicalIssues url domain doc).filter
        (fun i => decide (i.kind = IssueKind.manyExternalScripts)) =
      if 15 < externalScriptsCount domain doc then
        [⟨IssueKind.manyExternalScripts, Sev.warning, Cat.technical,
          "Multe scripturi externe (" ++ toString (externalScriptsCount domain doc) ++ ")"⟩]
      else [] := by
  unfold technicalIssues
  simp only [List.filter_append, viewportBlock_filter_ext, httpsBlock_filter_ext,
    extBlock_filter_ext, cookieBlock_filter_ext, List.nil_append, List.append_nil]
  rfl

/-- A document with every optional element absent. -/
def doc0 : Doc :=
  { raw := [], titleText := none, metaDescContent := none, h1s := [],
    imgAlts := [], canonicalHref := none, ogTitle := false, ogDesc := false,
    ogImage := false, schemaCount := 0, hasViewport := false, lazyCount := 0,
    scriptSrcs := [], stylesheetCount := 0 }

/-- A script source on the host `cdn.evil.net`, different from the domain
`shop.example`, which nevertheless contains the domain as a substring. -/
def c8Src : String := "http://cdn.evil.net/a.js?d=shop.example"

/-- Sixteen scripts loaded from a foreign host. -/
def docC8 : Doc := { doc0 with scriptSrcs := List.replicate 16 c8Src }

/-- C8 counterexample: all 16 script sources are absolute URLs on a host
different from the target domain, yet the analyzer emits no external-scripts
warning, because its actual test is substring containment of the domain in
the `src`, not host comparison. -/
theorem external_scripts_host_counterexample :
    (docC8.scriptSrcs.filter (fun src =>
        pyStartsWith "http" src && decide (specHostOf src ≠ "shop.example"))).length = 16 ∧
    15 < 16 ∧
    (technicalIssues "https://shop.example" "shop.example" docC8).filter
      (fun i => decide (i.kind = IssueKind.manyExternalScripts)) = [] := by decide

/- ## C10 -/

/-- C10 (amended): a title element whose text strips to the empty string
leaves `seo['title']` as the empty string (a falsy value, not `None`), gives
title length 0, and triggers the missing-title error rather than the
too-short warning. -/
theorem empty_title_missing_error (doc : Doc) (s : String)
    (h1 : doc.titleText = some s) (h2 : pyStrip s = "") :
    seoTitle doc = some "" ∧ seoTitleLength doc = 0 ∧
    (⟨IssueKind.titleMissing, Sev.error, Cat.seo, "Title tag lipsă"⟩ : Issue) ∈ seoIssues doc ∧
    (seoIssues doc).filter (fun i => decide (i.kind = IssueKind.titleShort)) = [] := by
  have ht : seoTitle doc = some "" := by simp [seoTitle, h1, h2]
  have htr : strTruthy (seoTitle doc) = false := by rw [ht]; rfl
  have htb : titleBlock doc =
      [⟨IssueKind.titleMissing, Sev.error, Cat.seo, "Title tag lipsă"⟩] := by
    unfold titleBlock
    rw [if_pos (by simp [htr])]
  refine ⟨ht, ?_, ?_, ?_⟩
  · simp [seoTitleLength, htr]
  · unfold seoIssues
    rw [htb]
    simp
  · unfold seoIssues
    simp only [List.filter_append, titleBlock_missing_filter_short doc htr,
      metaBlock_filter_short, h1Block_filter_short, imgBlock_filter_short,
      canonicalBlock_filter_short, ogBlock_filter_short, schemaBlock_filter_short,
      List.nil_append, List.append_nil]

/-- A document whose title element holds only whitespace. -/
def docC10 : Doc := { doc0 with titleText := some "   " }

/-- Witness for C10 on the whitespace-title document. -/
theorem empty_title_missing_error_witness :
    seoTitle docC10 = some "" ∧ seoTitleLength docC10 = 0 ∧
    (⟨IssueKind.titleMissing, Sev.error, Cat.seo, "Title tag lipsă"⟩ : Issue) ∈ seoIssues docC10 ∧
    (seoIssues docC10).filter (fun i => decide (i.kind = IssueKind.titleShort)) = [] :=
  empty_title_missing_error docC10 "   " rfl (by decide)

/-- C10 counterexample: with a whitespace-only title the stored title field
is the empty string, not `None` as the claim states; the rest of the claimed
behaviour (length 0, missing-title error) does hold. -/
theorem empty_title_counterexample :
    docC10.titleText = some "   " ∧
    seoTitle docC10 ≠ none ∧ seoTitle docC10 = some "" ∧
    seoTitleLength docC10 = 0 ∧
    (⟨IssueKind.titleMissing, Sev.error, Cat.seo, "Title tag lipsă"⟩ : Issue) ∈ seoIssues docC10 := by
  decide

/- ## C2 -/

/-- C2: for every successfully fetched document, each of the four category
scores set by its analyzer and the overall score set by the aggregator lies
in [0, 100]. -/
theorem all_scores_in_range (url domain : String) (doc : Doc) :
    ∃ s t te m o : ℤ,
      (runFullAnalysis url domain (FetchResult.success doc)).scores =
        ⟨some s, some t, some te, some m, some o⟩ ∧
      0 ≤ s ∧ s ≤ 100 ∧ 0 ≤ t ∧ t ≤ 100 ∧ 0 ≤ te ∧ te ≤ 100 ∧
      0 ≤ m ∧ m ≤ 100 ∧ 0 ≤ o ∧ o ≤ 100 := by
  have hs1 : 0 ≤ seoScore doc := clampScore_nonneg _
  have hs2 : seoScore doc ≤ 100 := clampScore_le _
  have ht1 : 0 ≤ trackingScore doc.raw := clampScore_nonneg _
  have ht2 : trackingScore doc.raw ≤ 100 := clampScore_le _
  have hte1 : 0 ≤ technicalScore url domain doc := clampScore_nonneg _
  have hte2 : technicalScore url domain doc ≤ 100 := clampScore_le _
  have hm1 : 0 ≤ metaAdsScore (hasFbPixel doc.raw) := metaAdsScore_nonneg _
  have hm2 : metaAdsScore (hasFbPixel doc.raw) ≤ 100 := metaAdsScore_le _
  have hrange := calcOverall_mem_range (seoScore doc) (trackingScore doc.raw)
    (technicalScore url domain doc) (metaAdsScore (hasFbPixel doc.raw))
    hs1 hs2 ht1 ht2 hte1 hte2 hm1 hm2
  have ho1 : 0 ≤ calcOverall (pipelineScoresMap url domain doc) := hrange.1
  have ho2 : calcOverall (pipelineScoresMap url domain doc) ≤ 100 := hrange.2
  exact ⟨seoScore doc, trackingScore doc.raw, technicalScore url domain doc,
    metaAdsScore (hasFbPixel doc.raw), calcOverall (pipelineScoresMap url domain doc),
    rfl, hs1, hs2, ht1, ht2, hte1, hte2, hm1, hm2, ho1, ho2⟩
